import Mathlib

/-!
Verification of the NyxBox emulator core: a shallow embedding of the
peripheral register contracts (Clock, UART, memory bus) and of the VDP
command-queue interpreter, with theorems checking the documented
behaviour against the embedded code.

Machine integers are modelled as `Nat` with explicit wrapping (`% 2^32`,
`% 2^64`) where the source relies on fixed-width arithmetic.  Host time
(the monotonic tick counter and the seconds-since-startup clock) is an
explicit parameter of the clock operations.  External backend calls made
by the VDP (register-file uploads and compute dispatches) are recorded
in ghost fields (`uploads`, `dispatches`) of the VDP state.
-/

namespace NyxBox

/-! Host time sources: `secs` models seconds elapsed since `time_start`
(`Instant::now().duration_since(self.time_start).as_secs()`), `ticks`
models the monotonic counter returned by `get_sdl_ctr()`. -/

structure Host where
  secs : Nat
  ticks : Nat

/-- Cast of an `i64` value to `u32` (`as u32` in the source): the low 32
bits of the two-complement representation. -/
def asU32 (x : Int) : Nat := (x % (2 ^ 32 : Int)).toNat

/-- Wrapping `u64` subtraction (release-mode `a - b` on `u64`). -/
def wsub64 (a b : Nat) : Nat := (a + 2 ^ 64 - b % 2 ^ 64) % 2 ^ 64

/-! Clock peripheral state (clock.rs, `struct Clock`).  `time_start` is
implicit in the `Host.secs` parameter; `ctr0_base`/`ctr1_base` are in
host ticks. -/

structure Clock where
  rtc_en : Bool
  ctr0_en : Bool
  ctr1_en : Bool
  ctr0_intr : Bool
  ctr1_intr : Bool
  ctr0_intr_p : Nat
  ctr1_intr_p : Nat
  ctr0 : Nat
  ctr1 : Nat
  dt_adjust : Int
  ctr0_base : Nat
  ctr1_base : Nat
  timestamp : Nat
deriving DecidableEq

/-- `Clock::new()`: all flags clear, counters zero, both bases at the
construction-time tick value. -/
def Clock.new (ctr_base : Nat) : Clock where
  rtc_en := false
  ctr0_en := false
  ctr1_en := false
  ctr0_intr := false
  ctr1_intr := false
  ctr0_intr_p := 0
  ctr1_intr_p := 0
  ctr0 := 0
  ctr1 := 0
  ctr0_base := ctr_base
  ctr1_base := ctr_base
  dt_adjust := 0
  timestamp := 0

/-- `Clock::read` (Peripheral impl): returns the register value and the
updated clock state (reads mutate the bookkeeping fields). -/
def Clock.read (now : Host) (c : Clock) (addr : Nat) : Nat × Clock :=
  if addr = 0x00 then
    ((if c.rtc_en then 1 else 0) |||
     (if c.ctr0_en then 2 else 0) |||
     (if c.ctr1_en then 4 else 0) |||
     (if c.ctr0_intr then 32 else 0) |||
     (if c.ctr1_intr then 64 else 0), c)
  else if addr = 0x01 then
    if c.rtc_en then
      let ts := asU32 ((now.secs : Int) + c.dt_adjust)
      (ts, { c with timestamp := ts })
    else
      (c.timestamp, { c with dt_adjust := (c.timestamp : Int) - (now.secs : Int) })
  else if addr = 0x02 then
    if c.ctr0_en then
      let v := wsub64 now.ticks c.ctr0_base
      (v % 2 ^ 32, { c with ctr0 := v })
    else
      (c.ctr0 % 2 ^ 32, { c with ctr0_base := wsub64 now.ticks c.ctr0 })
  else if addr = 0x03 then
    ((c.ctr0 >>> 32) % 2 ^ 32, c)
  else if addr = 0x04 then
    if c.ctr1_en then
      let v := wsub64 now.ticks c.ctr1_base
      (v % 2 ^ 32, { c with ctr1 := v })
    else
      (c.ctr1 % 2 ^ 32, { c with ctr1_base := wsub64 now.ticks c.ctr1 })
  else if addr = 0x05 then
    ((c.ctr1 >>> 32) % 2 ^ 32, c)
  else if addr = 0x06 then
    (c.ctr0_intr_p, c)
  else if addr = 0x07 then
    (c.ctr1_intr_p, c)
  else
    (0, c)

/-- `Clock::write` (Peripheral impl). -/
def Clock.write (now : Host) (c : Clock) (addr val : Nat) : Clock :=
  if addr = 0x00 then
    let c1 := { c with
      rtc_en := val &&& 1 != 0
      ctr0_en := val &&& 2 != 0
      ctr1_en := val &&& 4 != 0
      ctr0_intr := val &&& 32 != 0
      ctr1_intr := val &&& 64 != 0 }
    let c2 := if val &&& 8 != 0 then { c1 with ctr0_base := now.ticks, ctr0 := 0 } else c1
    let c3 := if val &&& 16 != 0 then { c2 with ctr1_base := now.ticks, ctr1 := 0 } else c2
    { c3 with timestamp := asU32 ((now.secs : Int) + c3.dt_adjust) }
  else if addr = 0x01 then
    if !c.rtc_en then
      { c with dt_adjust := (val : Int) - (now.secs : Int) }
    else
      c
  else if addr = 0x06 then
    { c with ctr0_intr_p := val }
  else if addr = 0x07 then
    { c with ctr1_intr_p := val }
  else
    c

/-- Externally observed 64-bit value of counter 0: a guest LO read
(register 0x02) followed by a HI read (register 0x03), combined as
`lo + 2^32 * hi`. -/
def Clock.readCtr0 (now : Host) (c : Clock) : Nat × Clock :=
  let r := Clock.read now c 0x02
  let r2 := Clock.read now r.snd 0x03
  (r.fst + 2 ^ 32 * r2.fst, r2.snd)

/-! UART peripheral (uart.rs).  The output sink `tx` is modelled as the
list of bytes written so far (write-through; `flush` does not discard
already written output). -/

structure UART where
  rx : List Nat
  tx : List Nat
deriving DecidableEq

/-- `UART::new`: empty receive queue. -/
def UART.new (tx : List Nat) : UART := ⟨[], tx⟩

/-- `UART::push_input`: host-side feed appending bytes to the rx queue. -/
def UART.push_input (u : UART) (input : List Nat) : UART :=
  { u with rx := u.rx ++ input }

/-- `UART::read` (Peripheral impl). -/
def UART.read (u : UART) (addr : Nat) : Nat × UART :=
  if addr = 0x00 then
    (2 ||| (if u.rx.length = 0 then 8 else 0), u)
  else if addr = 0x02 then
    match u.rx with
    | [] => (0, u)
    | v :: rest => (v, { u with rx := rest })
  else
    (0, u)

/-- `UART::write` (Peripheral impl). -/
def UART.write (u : UART) (addr val : Nat) : UART :=
  if addr = 0x00 then
    if val &&& 1 != 0 then { u with rx := [] } else u
  else if addr = 0x01 then
    { u with tx := u.tx ++ [val % 256] }
  else
    u

/-- `n` successive guest reads of the UART RX register (index 0x02),
collecting the returned values. -/
def UART.readRxN (u : UART) : Nat → List Nat × UART
  | 0 => ([], u)
  | n + 1 =>
    let r := UART.read u 0x02
    let rest := UART.readRxN r.snd n
    (r.fst :: rest.fst, rest.snd)

/-! Memory bus (machine.rs, `Machine::map_peripheral`).  The MMIO hooks
installed for a peripheral window compute the local register slot from
the address the CPU engine hands them; the engine invokes a hook with
the offset of the access relative to the start of the mapped window. -/

/-- The local-slot computation inside the `rd`/`wr` closures of
`map_peripheral`: `(addr & 0xFFFFFF) >> 2`. -/
def localAddrOf (offset : Nat) : Nat := (offset &&& 0xFFFFFF) >>> 2

/-- Local register slot the peripheral receives for a guest access at
physical address `a` inside the window `[base, base + length)`: the CPU
engine passes the hooks the region-relative offset `a - base`. -/
def busLocal (base _length a : Nat) : Nat := localAddrOf (a - base)

/-- The slot computation as the spec words it: `(addr & (length-1)) >> 2`
on the physical address.  Stated for comparison with `busLocal`. -/
def specLocalIndex (a length : Nat) : Nat := (a &&& (length - 1)) >>> 2

/-! VDP (vdp.rs). -/

def REG_STATUS : Nat := 0
def REG_CMDPORT : Nat := 1
def REG_DISPLAYMODE : Nat := 2

def STATUSBIT_RESET : Nat := 1
def STATUSBIT_CMDFIFOEMPTY : Nat := 2
def STATUSBIT_ERR_ADDR : Nat := 0x8
def STATUSBIT_ERR_CMD : Nat := 0x10

def DISPLAYBIT_ENABLE : Nat := 4
def DISPLAYBIT_INTERLACE : Nat := 8

/-- VRAM capacity in 32-bit words (`VRAM_SIZE` = 8 MiB of bytes; the
transfer buffer is mapped as `u32` words). -/
def VRAM_WORDS : Nat := 1024 * 1024 * 8 / 4

inductive ErrorMode where
  | none
  | addressError
  | cmdError
deriving DecidableEq

inductive DisplayCable where
  | vga
  | composite
  | svideo
  | component
deriving DecidableEq

/-- Backend compute dispatches issued by the interpreter (ghost log of
the `begin_compute_pass ... dispatch(count,1,1)` calls). -/
inductive GpuDispatch where
  | vertexList (count src_ptr dst_ptr : Nat)
  | triList (count src_ptr : Nat)
deriving DecidableEq

/-- VDP state (vdp.rs, `struct VDP`).  `vram` is the word-indexed
content of the VRAM transfer buffer; `uploads` counts the register-file
uploads performed by `flush_regmem`; `dispatches` logs backend compute
dispatches. -/
structure VDP where
  internal_reg : List Nat
  reset_state : Bool
  cmd_fifo : List Nat
  last_cmd_tok : List Nat
  cable_type : DisplayCable
  display_enable : Bool
  display_interlace : Bool
  err_mode : ErrorMode
  vram : Nat → Nat
  regmem_dirty : Bool
  uploads : Nat
  dispatches : List GpuDispatch

/-- `VDP::new`: zeroed register file, empty FIFOs, no error, dirty
register mirror. -/
def VDP.new (vram : Nat → Nat) : VDP where
  internal_reg := List.replicate 256 0
  reset_state := false
  cmd_fifo := []
  last_cmd_tok := []
  cable_type := DisplayCable.vga
  display_enable := false
  display_interlace := false
  err_mode := ErrorMode.none
  vram := vram
  regmem_dirty := true
  uploads := 0
  dispatches := []

/-- `VDP::get_reg`: returns the register value and the updated state
(a CMDPORT read pops the completion-token queue). -/
def VDP.get_reg (st : VDP) (reg : Nat) : Nat × VDP :=
  if reg = REG_STATUS then
    ((if st.reset_state then STATUSBIT_RESET else 0) |||
     (if st.cmd_fifo.length = 0 then STATUSBIT_CMDFIFOEMPTY else 0) |||
     (match st.err_mode with
      | ErrorMode.none => 0
      | ErrorMode.addressError => STATUSBIT_ERR_ADDR
      | ErrorMode.cmdError => STATUSBIT_ERR_CMD), st)
  else if reg = REG_CMDPORT then
    match st.last_cmd_tok with
    | [] => (0, st)
    | t :: rest => (t, { st with last_cmd_tok := rest })
  else if reg = REG_DISPLAYMODE then
    ((match st.cable_type with
      | DisplayCable.vga => 0
      | DisplayCable.composite => 1
      | DisplayCable.svideo => 2
      | DisplayCable.component => 3) |||
     (if st.display_enable then DISPLAYBIT_ENABLE else 0) |||
     (if st.display_interlace then DISPLAYBIT_INTERLACE else 0), st)
  else
    (0, st)

/-- `VDP::set_reg`. -/
def VDP.set_reg (st : VDP) (reg value : Nat) : VDP :=
  if reg = REG_STATUS then
    if value &&& STATUSBIT_RESET = 0 then { st with reset_state := true } else st
  else if reg = REG_CMDPORT then
    { st with cmd_fifo := st.cmd_fifo ++ [value] }
  else if reg = REG_DISPLAYMODE then
    { st with
      display_enable := value &&& DISPLAYBIT_ENABLE != 0
      display_interlace := value &&& DISPLAYBIT_INTERLACE != 0 }
  else
    st

/-- `VDP::flush_regmem`: upload the register file to the backend mirror
if it is dirty (the upload is recorded in the ghost counter). -/
def VDP.flush_regmem (st : VDP) : VDP :=
  if st.regmem_dirty then { st with uploads := st.uploads + 1, regmem_dirty := false } else st

/-- `VDP::exec_cmd_queue`: interpret the command buffer starting at word
address `addr`.  The source loops until an end-of-queue or undefined
opcode returns; the extra `fuel` argument bounds the number of loop
iterations (each iteration handles one command). -/
def VDP.exec_cmd_queue : Nat → VDP → Nat → VDP
  | 0, st, _ => st
  | fuel + 1, st, addr =>
    let hdr := st.vram addr
    let op := hdr % 256
    if op = 0 then
      -- write internal register
      let register_idx := hdr / 256 % 256
      let register_val := st.vram (addr + 1)
      VDP.exec_cmd_queue fuel
        { st with
          internal_reg := st.internal_reg.set register_idx register_val
          regmem_dirty := true } (addr + 2)
    else if op = 1 then
      -- process vertex list
      let count := hdr / 256
      let src_ptr := st.vram (addr + 1)
      let dst_ptr := st.vram (addr + 2)
      let st1 := VDP.flush_regmem st
      VDP.exec_cmd_queue fuel
        { st1 with dispatches := st1.dispatches ++ [GpuDispatch.vertexList count src_ptr dst_ptr] }
        (addr + 3)
    else if op = 2 then
      -- draw triangle list
      let count := hdr / 256
      let src_ptr := st.vram (addr + 1)
      let st1 := VDP.flush_regmem st
      VDP.exec_cmd_queue fuel
        { st1 with dispatches := st1.dispatches ++ [GpuDispatch.triList count src_ptr] }
        (addr + 2)
    else if op = 3 ∨ op = 4 ∨ op = 5 then
      -- draw triangle strip / line list / line strip: operands consumed only
      VDP.exec_cmd_queue fuel st (addr + 2)
    else if op = 6 ∨ op = 7 then
      -- clear color / clear depth: operand consumed only
      VDP.exec_cmd_queue fuel st (addr + 2)
    else if op = 255 then
      -- end of queue
      { st with last_cmd_tok := st.last_cmd_tok ++ [hdr / 256] }
    else
      { st with err_mode := ErrorMode.cmdError }

/-- `VDP::tick`: drain the submission FIFO (snapshot taken at entry) and
interpret each queued command buffer in submission order. -/
def VDP.tick (fuel : Nat) (st : VDP) : VDP :=
  st.cmd_fifo.foldl (fun s a => VDP.exec_cmd_queue fuel s a) { st with cmd_fifo := [] }

/-- `VDP::upload`: copy `mem` into the VRAM transfer buffer at word
address `dst_addr`.  The source slices
`vram.mem_mut()[dst_addr..][..mem.len()]`, which is out of bounds (a
host panic, modelled as `none`) when the payload does not fit. -/
def VDP.upload (st : VDP) (mem : List Nat) (dst_addr : Nat) : Option VDP :=
  if dst_addr + mem.length ≤ VRAM_WORDS then
    some { st with
      vram := fun i =>
        if dst_addr ≤ i ∧ i < dst_addr + mem.length then mem.getD (i - dst_addr) 0
        else st.vram i }
  else
    none

/-- Guest-visible and host-side operations on the VDP. -/
inductive VDPOp where
  | getReg (reg : Nat)
  | setReg (reg value : Nat)
  | tick (fuel : Nat)
  | upload (mem : List Nat) (dst_addr : Nat)
  | setCable (cable : DisplayCable)

def VDP.step (st : VDP) : VDPOp → VDP
  | VDPOp.getReg r => (VDP.get_reg st r).snd
  | VDPOp.setReg r v => VDP.set_reg st r v
  | VDPOp.tick fuel => VDP.tick fuel st
  | VDPOp.upload mem dst => (VDP.upload st mem dst).getD st
  | VDPOp.setCable c => { st with cable_type := c }

def VDP.run (st : VDP) : List VDPOp → VDP
  | [] => st
  | op :: ops => VDP.run (VDP.step st op) ops

/-- A word buffer placed in VRAM at word address `base` (zero
elsewhere). -/
def bufAt (ws : List Nat) (base : Nat) : Nat → Nat :=
  fun i => if base ≤ i then ws.getD (i - base) 0 else 0

/-- The words of `n` consecutive WRITE_INTERNAL_REGISTER commands, all
writing `val` to register `reg` (header `reg <<< 8`, then the value). -/
def writeCmds (n reg val : Nat) : List Nat :=
  match n with
  | 0 => []
  | n + 1 => reg * 256 :: val :: writeCmds n reg val

/-- Command buffer with `n` register writes, one PROCESS_VERTEX_LIST,
one DRAW_PRIMITIVE_LIST (triangle list) and an END_OF_QUEUE. -/
def c6buf (n reg val c1 s1 d1 c2 s2 tok : Nat) : List Nat :=
  writeCmds n reg val ++ [1 + c1 * 256, s1, d1, 2 + c2 * 256, s2, 255 + tok * 256]

/-- VDP whose VRAM holds, at word address 16, the command buffer
`[WRITE_INTERNAL_REGISTER(reg=5, val=7), END_OF_QUEUE(token=42)]`:
headers `5 <<< 8 = 1280` and `0xFF ||| (42 <<< 8) = 11007`. -/
def c1_st : VDP := VDP.new (bufAt [1280, 7, 11007] 16)

/-- VDP whose VRAM holds, at word address 2, the one-command buffer
`[END_OF_QUEUE(token=99)]` (header `0xFF ||| (99 <<< 8) = 25599`). -/
def c2_st : VDP := VDP.new (bufAt [25599] 2)

/-- VDP whose VRAM holds a buffer with the undefined opcode `0x7F` at
word address 0 and, at word address 8, the buffer
`[WRITE_INTERNAL_REGISTER(reg=5, val=7), END_OF_QUEUE(token=42)]`. -/
def c3_st : VDP := VDP.new (bufAt [127, 0, 0, 0, 0, 0, 0, 0, 1280, 7, 11007] 0)

/-- VDP whose VRAM holds, at word address 0, the buffer
`[DRAW_PRIMITIVE_LIST(count=0, addr=0), END_OF_QUEUE(token=0)]` -- no
register write at all. -/
def c6_st : VDP := VDP.new (bufAt [2, 0, 255] 0)

/-- VDP whose VRAM holds, at word address 0, the buffer
`[PROCESS_VERTEX_LIST(count=0xFFFFFF, src=0, dst=0), END_OF_QUEUE(0)]`:
the vertex count far exceeds the VRAM word capacity. -/
def c8_st : VDP := VDP.new (bufAt [1 + 0xFFFFFF * 256, 0, 0, 255] 0)

/-- VDP whose VRAM holds, at word address 0, the buffer
`[DRAW_PRIMITIVE_LIST(count=0xFFFFFF, addr=0), END_OF_QUEUE(0)]`: the
primitive count far exceeds the VRAM word capacity. -/
def c8b_st : VDP := VDP.new (bufAt [2 + 0xFFFFFF * 256, 0, 255] 0)

/-- A VDP that has already faulted (command error) and has reset armed. -/
def c10_st : VDP :=
  { VDP.new (fun _ => 0) with err_mode := ErrorMode.cmdError, reset_state := true }

/-- A fresh clock whose counter 0 is enabled (base 0, captured value 0). -/
def c5_st : Clock := { Clock.new 0 with ctr0_en := true }

/-- VDP whose VRAM holds, at word address 0, a buffer of two register
writes (reg 5, value 7), a PROCESS_VERTEX_LIST, a DRAW_PRIMITIVE_LIST
and an END_OF_QUEUE (token 9). -/
def c6w_st : VDP := VDP.new (bufAt (c6buf 2 5 7 1 64 128 1 64 9) 0)

/-! Helper lemmas. -/

theorem flush_regmem_err (st : VDP) : (VDP.flush_regmem st).err_mode = st.err_mode := by
  unfold VDP.flush_regmem
  split <;> rfl

theorem flush_regmem_reset (st : VDP) : (VDP.flush_regmem st).reset_state = st.reset_state := by
  unfold VDP.flush_regmem
  split <;> rfl

/-- The interpreter either leaves `err_mode` alone or sets it to
`CmdError` (the undefined-opcode arm); it never produces any other
error value and never clears an error. -/
theorem exec_err_mode (fuel : Nat) : ∀ (st : VDP) (addr : Nat),
    (VDP.exec_cmd_queue fuel st addr).err_mode = st.err_mode ∨
    (VDP.exec_cmd_queue fuel st addr).err_mode = ErrorMode.cmdError := by
  induction fuel with
  | zero => intro st addr; left; rfl
  | succ fuel ih =>
    intro st addr
    simp only [VDP.exec_cmd_queue]
    split_ifs with h0 h1 h2 h345 h67 h255
    · exact ih _ _
    · exact (ih _ _).imp (fun h => h.trans (flush_regmem_err st)) id
    · exact (ih _ _).imp (fun h => h.trans (flush_regmem_err st)) id
    · exact ih _ _
    · exact ih _ _
    · left; rfl
    · right; rfl

/-- The interpreter never touches `reset_state`. -/
theorem exec_reset_state (fuel : Nat) : ∀ (st : VDP) (addr : Nat),
    (VDP.exec_cmd_queue fuel st addr).reset_state = st.reset_state := by
  induction fuel with
  | zero => intro st addr; rfl
  | succ fuel ih =>
    intro st addr
    simp only [VDP.exec_cmd_queue]
    split_ifs with h0 h1 h2 h345 h67 h255
    · exact ih _ _
    · exact (ih _ _).trans (flush_regmem_reset st)
    · exact (ih _ _).trans (flush_regmem_reset st)
    · exact ih _ _
    · exact ih _ _
    · rfl
    · rfl

theorem foldl_exec_err_mode (fuel : Nat) (l : List Nat) : ∀ st : VDP,
    (l.foldl (fun s a => VDP.exec_cmd_queue fuel s a) st).err_mode = st.err_mode ∨
    (l.foldl (fun s a => VDP.exec_cmd_queue fuel s a) st).err_mode = ErrorMode.cmdError := by
  induction l with
  | nil => intro st; left; rfl
  | cons a l ih =>
    intro st
    simp only [List.foldl_cons]
    rcases ih (VDP.exec_cmd_queue fuel st a) with h | h
    · rcases exec_err_mode fuel st a with h' | h'
      · exact Or.inl (h.trans h')
      · exact Or.inr (h.trans h')
    · exact Or.inr h

theorem foldl_exec_reset_state (fuel : Nat) (l : List Nat) : ∀ st : VDP,
    (l.foldl (fun s a => VDP.exec_cmd_queue fuel s a) st).reset_state = st.reset_state := by
  induction l with
  | nil => intro st; rfl
  | cons a l ih =>
    intro st
    simp only [List.foldl_cons]
    exact (ih _).trans (exec_reset_state fuel st a)

/-- A single guest or host operation never introduces an error mode
other than `CmdError` and never clears one. -/
theorem step_err_mode (st : VDP) (op : VDPOp) :
    (VDP.step st op).err_mode = st.err_mode ∨
    (VDP.step st op).err_mode = ErrorMode.cmdError := by
  cases op with
  | getReg r =>
    left
    simp only [VDP.step, VDP.get_reg]
    split_ifs <;> first | rfl | (cases st.last_cmd_tok <;> rfl)
  | setReg r v =>
    left
    simp only [VDP.step, VDP.set_reg]
    split_ifs <;> rfl
  | tick fuel =>
    exact foldl_exec_err_mode fuel st.cmd_fifo _
  | upload mem dst =>
    left
    simp only [VDP.step, VDP.upload]
    split_ifs <;> rfl
  | setCable c =>
    left; rfl

/-- A single operation never clears an armed `reset_state`. -/
theorem step_reset_state (st : VDP) (op : VDPOp) :
    (VDP.step st op).reset_state = st.reset_state ∨
    (VDP.step st op).reset_state = true := by
  cases op with
  | getReg r =>
    left
    simp only [VDP.step, VDP.get_reg]
    split_ifs <;> first | rfl | (cases st.last_cmd_tok <;> rfl)
  | setReg r v =>
    simp only [VDP.step, VDP.set_reg]
    split_ifs
    · right; rfl
    · left; rfl
    · left; rfl
    · left; rfl
    · left; rfl
  | tick fuel =>
    exact Or.inl (foldl_exec_reset_state fuel st.cmd_fifo _)
  | upload mem dst =>
    left
    simp only [VDP.step, VDP.upload]
    split_ifs <;> rfl
  | setCable c =>
    left; rfl

theorem run_err_mode (ops : List VDPOp) : ∀ st : VDP,
    (VDP.run st ops).err_mode = st.err_mode ∨
    (VDP.run st ops).err_mode = ErrorMode.cmdError := by
  induction ops with
  | nil => intro st; left; rfl
  | cons op ops ih =>
    intro st
    rcases ih (VDP.step st op) with h | h
    · rcases step_err_mode st op with h' | h'
      · exact Or.inl (h.trans h')
      · exact Or.inr (h.trans h')
    · exact Or.inr h

theorem run_reset_state (ops : List VDPOp) : ∀ st : VDP,
    st.reset_state = true → (VDP.run st ops).reset_state = true := by
  induction ops with
  | nil => intro st h; exact h
  | cons op ops ih =>
    intro st h
    refine ih (VDP.step st op) ?_
    rcases step_reset_state st op with h' | h'
    · exact h'.trans h
    · exact h'

theorem writeCmds_length (n reg val : Nat) : (writeCmds n reg val).length = 2 * n := by
  induction n with
  | zero => rfl
  | succ n ih =>
    simp only [writeCmds, List.length_cons, ih]
    omega

/-- One interpreter step at a WRITE_INTERNAL_REGISTER header. -/
theorem exec_op0_step (st : VDP) (fuel addr reg val : Nat)
    (h : st.vram addr = reg * 256) (hreg : reg < 256) (hval : st.vram (addr + 1) = val) :
    VDP.exec_cmd_queue (fuel + 1) st addr =
      VDP.exec_cmd_queue fuel
        { st with internal_reg := st.internal_reg.set reg val, regmem_dirty := true }
        (addr + 2) := by
  simp only [VDP.exec_cmd_queue, h, hval]
  split_ifs with h0 h1 h2 h345 h67 h255
  · have hidx : reg * 256 / 256 % 256 = reg := by
      rw [Nat.mul_div_cancel _ (by norm_num : (0 : Nat) < 256)]
      exact Nat.mod_eq_of_lt hreg
    rw [hidx]
  all_goals omega

/-- One interpreter step at a PROCESS_VERTEX_LIST header: the register
file is flushed and the dispatch receives the header count verbatim. -/
theorem exec_op1_step (st : VDP) (fuel addr count src dst : Nat)
    (h : st.vram addr = 1 + count * 256) (hs : st.vram (addr + 1) = src)
    (hd : st.vram (addr + 2) = dst) :
    VDP.exec_cmd_queue (fuel + 1) st addr =
      VDP.exec_cmd_queue fuel
        { VDP.flush_regmem st with
          dispatches := (VDP.flush_regmem st).dispatches ++
            [GpuDispatch.vertexList count src dst] }
        (addr + 3) := by
  have hcount : (1 + count * 256) / 256 = count := by omega
  simp only [VDP.exec_cmd_queue, h, hs, hd, hcount]
  split_ifs with h0 h1 h2 h345 h67 h255
  · omega
  · rfl
  all_goals omega

/-- One interpreter step at a DRAW_PRIMITIVE_LIST (triangle list)
header. -/
theorem exec_op2_step (st : VDP) (fuel addr count src : Nat)
    (h : st.vram addr = 2 + count * 256) (hs : st.vram (addr + 1) = src) :
    VDP.exec_cmd_queue (fuel + 1) st addr =
      VDP.exec_cmd_queue fuel
        { VDP.flush_regmem st with
          dispatches := (VDP.flush_regmem st).dispatches ++ [GpuDispatch.triList count src] }
        (addr + 2) := by
  have hcount : (2 + count * 256) / 256 = count := by omega
  simp only [VDP.exec_cmd_queue, h, hs, hcount]
  split_ifs with h0 h1 h2 h345 h67 h255
  · omega
  · omega
  · rfl
  all_goals omega

/-- One interpreter step at an END_OF_QUEUE header: push the token and
stop. -/
theorem exec_op255_step (st : VDP) (fuel addr tok : Nat)
    (h : st.vram addr = 255 + tok * 256) :
    VDP.exec_cmd_queue (fuel + 1) st addr =
      { st with last_cmd_tok := st.last_cmd_tok ++ [tok] } := by
  have htok : (255 + tok * 256) / 256 = tok := by omega
  simp only [VDP.exec_cmd_queue, h, htok]
  split_ifs with h0 h1 h2 h345 h67 h255
  · omega
  · omega
  · omega
  · omega
  · omega
  · rfl
  · omega

/-- Interpreting `n` consecutive WRITE_INTERNAL_REGISTER commands (all
to the same register) with `k` fuel to spare: the register file ends
with the written value, the dirty flag is set (for `n ≥ 1`), and no
upload or dispatch happens. -/
theorem exec_writeCmds (reg val : Nat) (hreg : reg < 256) :
    ∀ (n : Nat) (st : VDP) (addr k : Nat) (rest : List Nat),
      (∀ j, j < (writeCmds n reg val ++ rest).length →
        st.vram (addr + j) = (writeCmds n reg val ++ rest).getD j 0) →
      VDP.exec_cmd_queue (n + k) st addr =
        VDP.exec_cmd_queue k
          (if n = 0 then st
           else { st with internal_reg := st.internal_reg.set reg val, regmem_dirty := true })
          (addr + 2 * n) := by
  intro n
  induction n with
  | zero =>
    intro st addr k rest hv
    simp
  | succ n ih =>
    intro st addr k rest hv
    have hlen : (writeCmds (n + 1) reg val ++ rest).length = 2 * (n + 1) + rest.length := by
      rw [List.length_append, writeCmds_length]
    have h0 : st.vram addr = reg * 256 := by
      have h := hv 0 (by omega)
      simpa using h
    have h1 : st.vram (addr + 1) = val := by
      have h := hv 1 (by omega)
      simpa [writeCmds] using h
    have harr : n + 1 + k = n + k + 1 := by omega
    rw [harr, exec_op0_step st (n + k) addr reg val h0 hreg h1]
    have hv' : ∀ j, j < (writeCmds n reg val ++ rest).length →
        ({ st with internal_reg := st.internal_reg.set reg val, regmem_dirty := true } : VDP).vram ((addr + 2) + j) =
          (writeCmds n reg val ++ rest).getD j 0 := by
      intro j hj
      have hlen2 : (writeCmds n reg val ++ rest).length = 2 * n + rest.length := by
        rw [List.length_append, writeCmds_length]
      have h := hv (j + 2) (by omega)
      have harr2 : addr + (j + 2) = addr + 2 + j := by omega
      rw [harr2] at h
      simpa [writeCmds] using h
    rw [ih _ (addr + 2) k rest hv']
    rcases Nat.eq_zero_or_pos n with hn | hn
    · subst hn
      simp
    · rw [if_neg (by omega), if_neg (by omega)]
      congr 1
      · congr 1
        dsimp only
        rw [List.set_set]
      · omega

/-! Claim theorems. -/

/-- C1: submitting via CMDPORT the address (16) of a command buffer
`[WRITE_INTERNAL_REGISTER(reg=5, val=7), END_OF_QUEUE(token=42)]` and
ticking once leaves `internal_reg[5] = 7` and `last_cmd_tok = [42]`;
a CMDPORT read then returns 42 and the next CMDPORT read returns 0
(tokens drain oldest first, an empty token queue reads as 0). -/
theorem vdp_cmd_buffer_token_roundtrip :
    (VDP.tick 8 (VDP.set_reg c1_st REG_CMDPORT 16)).internal_reg.getD 5 0 = 7 ∧
    (VDP.tick 8 (VDP.set_reg c1_st REG_CMDPORT 16)).last_cmd_tok = [42] ∧
    (VDP.get_reg (VDP.tick 8 (VDP.set_reg c1_st REG_CMDPORT 16)) REG_CMDPORT).fst = 42 ∧
    (VDP.get_reg (VDP.get_reg (VDP.tick 8 (VDP.set_reg c1_st REG_CMDPORT 16)) REG_CMDPORT).snd
      REG_CMDPORT).fst = 0 := by
  refine ⟨?_, ?_, ?_, ?_⟩ <;> rfl

/-- C9: pushing bytes `[b1..bn]` into the UART rx queue (starting from a
fresh UART) and reading RX `n + 1` times returns `b1..bn` in order and
then 0; at that point the STATUS register has bit 3 (RX FIFO empty)
set. -/
theorem uart_rx_fifo_order (bs : List Nat) (tx : List Nat)
    (_hbytes : ∀ b ∈ bs, b < 256) :
    (UART.readRxN (UART.push_input (UART.new tx) bs) (bs.length + 1)).fst = bs ++ [0] ∧
    (UART.read (UART.readRxN (UART.push_input (UART.new tx) bs) (bs.length + 1)).snd
      0x00).fst &&& 8 = 8 := by
  have key : ∀ (l : List Nat) (u : UART), u.rx = l →
      UART.readRxN u (l.length + 1) = (l ++ [0], { u with rx := [] }) := by
    intro l
    induction l with
    | nil =>
      intro u h
      obtain ⟨rx, tx'⟩ := u
      simp only at h
      subst h
      rfl
    | cons b t ih =>
      intro u h
      obtain ⟨rx, tx'⟩ := u
      simp only at h
      subst h
      have step : UART.readRxN ⟨b :: t, tx'⟩ ((b :: t).length + 1) =
          (b :: (UART.readRxN ⟨t, tx'⟩ (t.length + 1)).fst,
           (UART.readRxN ⟨t, tx'⟩ (t.length + 1)).snd) := rfl
      rw [step, ih ⟨t, tx'⟩ rfl]
      rfl
  have hpush : UART.push_input (UART.new tx) bs = ⟨bs, tx⟩ := by
    simp [UART.push_input, UART.new]
  rw [hpush, key bs ⟨bs, tx⟩ rfl]
  refine ⟨rfl, ?_⟩
  show (2 ||| 8) &&& 8 = 8
  decide

/-- C9 witness: the concrete byte sequence `[72, 101, 108]`. -/
theorem uart_rx_fifo_order_witness :
    (UART.readRxN (UART.push_input (UART.new []) [72, 101, 108]) 4).fst = [72, 101, 108, 0] ∧
    (UART.read (UART.readRxN (UART.push_input (UART.new []) [72, 101, 108]) 4).snd
      0x00).fst &&& 8 = 8 :=
  uart_rx_fifo_order [72, 101, 108] [] (by decide)

/-- C10: once `err_mode` is a fault value it is never cleared back to
`None` by any sequence of guest-visible operations, an armed
`reset_state` is never cleared, and a STATUS write with the reset bit
clear does nothing except set `reset_state` (the internal reset routine
is unreachable). -/
theorem vdp_error_sticky (st : VDP) (ops : List VDPOp) :
    (st.err_mode ≠ ErrorMode.none → (VDP.run st ops).err_mode ≠ ErrorMode.none) ∧
    (st.reset_state = true → (VDP.run st ops).reset_state = true) ∧
    (∀ v, v &&& STATUSBIT_RESET = 0 →
      VDP.set_reg st REG_STATUS v = { st with reset_state := true }) := by
  refine ⟨?_, run_reset_state ops st, ?_⟩
  · intro herr
    rcases run_err_mode ops st with h | h
    · rw [h]; exact herr
    · rw [h]; intro hc; cases hc
  · intro v hv
    unfold VDP.set_reg
    rw [if_pos rfl, if_pos hv]

/-- C10 witness: a faulted VDP with reset armed stays faulted and armed
across a tick and register accesses. -/
theorem vdp_error_sticky_witness :
    (VDP.run c10_st [VDPOp.tick 2, VDPOp.getReg 0, VDPOp.setReg 0 0]).err_mode ≠
      ErrorMode.none ∧
    (VDP.run c10_st [VDPOp.tick 2, VDPOp.getReg 0, VDPOp.setReg 0 0]).reset_state = true ∧
    VDP.set_reg c10_st REG_STATUS 0 = { c10_st with reset_state := true } := by
  obtain ⟨h1, h2, h3⟩ :=
    vdp_error_sticky c10_st [VDPOp.tick 2, VDPOp.getReg 0, VDPOp.setReg 0 0]
  exact ⟨h1 (by decide), h2 rfl, h3 0 rfl⟩

/-- C2 counterexample: a command buffer submitted at the non-multiple-
of-4 starting address 2 is interpreted normally -- its end-of-queue
token 99 is pushed and `err_mode` stays `None`, where the claim demands
`err_mode = AddressError` and no token. -/
theorem vdp_misaligned_no_addr_fault_cex :
    (VDP.tick 4 (VDP.set_reg c2_st REG_CMDPORT 2)).err_mode = ErrorMode.none ∧
    (VDP.tick 4 (VDP.set_reg c2_st REG_CMDPORT 2)).last_cmd_tok = [99] ∧
    2 % 4 ≠ 0 := by
  refine ⟨rfl, rfl, by decide⟩

/-- C2 amended: the interpreter performs no alignment check at all --
no sequence of guest-visible operations ever sets
`err_mode = AddressError`; a buffer at a misaligned starting address is
interpreted like any other (the submitted value is used directly as a
word index). -/
theorem vdp_address_error_never_set (st : VDP) (ops : List VDPOp)
    (h : st.err_mode ≠ ErrorMode.addressError) :
    (VDP.run st ops).err_mode ≠ ErrorMode.addressError := by
  rcases run_err_mode ops st with h' | h'
  · rw [h']; exact h
  · rw [h']; intro hc; cases hc

/-- C2 witness: submitting the misaligned address 2 and ticking never
yields `AddressError`. -/
theorem vdp_address_error_never_set_witness :
    (VDP.run c2_st [VDPOp.setReg REG_CMDPORT 2, VDPOp.tick 4]).err_mode ≠
      ErrorMode.addressError :=
  vdp_address_error_never_set c2_st [VDPOp.setReg REG_CMDPORT 2, VDPOp.tick 4] (by decide)

/-- C3: when the interpreter meets a header whose opcode byte is outside
the defined set (not 0x00-0x07 and not 0xFF), it sets
`err_mode = CmdError` and terminates the buffer immediately with the
rest of the state (register file, token queue) untouched; and a buffer
queued after the faulting one in the same tick is still processed to
completion in submission order (concrete instance: opcode 0x7F at
address 0, then a register-write/end-of-queue buffer at address 8). -/
theorem vdp_undefined_opcode_faults :
    (∀ (st : VDP) (addr fuel : Nat),
      7 < st.vram addr % 256 → st.vram addr % 256 ≠ 255 →
      VDP.exec_cmd_queue (fuel + 1) st addr = { st with err_mode := ErrorMode.cmdError }) ∧
    ((VDP.tick 8 (VDP.set_reg (VDP.set_reg c3_st REG_CMDPORT 0) REG_CMDPORT 8)).err_mode
        = ErrorMode.cmdError ∧
     (VDP.tick 8 (VDP.set_reg (VDP.set_reg c3_st REG_CMDPORT 0) REG_CMDPORT 8)).last_cmd_tok
        = [42] ∧
     (VDP.tick 8 (VDP.set_reg (VDP.set_reg c3_st REG_CMDPORT 0) REG_CMDPORT 8)).internal_reg.getD
        5 0 = 7) := by
  constructor
  · intro st addr fuel h7 h255
    simp only [VDP.exec_cmd_queue]
    split_ifs with h0 h1 h2 h345 h67
    · omega
    · omega
    · omega
    · rcases h345 with h | h | h <;> omega
    · rcases h67 with h | h <;> omega
    · rfl
  · refine ⟨rfl, rfl, rfl⟩

/-- C3 witness: the undefined-opcode arm at a concrete header word. -/
theorem vdp_undefined_opcode_faults_witness :
    VDP.exec_cmd_queue 1 c3_st 0 = { c3_st with err_mode := ErrorMode.cmdError } :=
  vdp_undefined_opcode_faults.1 c3_st 0 0 (by decide) (by decide)

/-- C7 counterexample: for the admissible mapping (base = 0x1000,
length = 0x2000) and the in-window physical address 0x2004, the bus
hands the peripheral slot 0x401 while the claimed formula
`(addr & (length-1)) >> 2` gives 1. -/
theorem bus_local_index_cex :
    (0x1000 : Nat) ≤ 0x2004 ∧ (0x2004 : Nat) < 0x1000 + 0x2000 ∧
    busLocal 0x1000 0x2000 0x2004 = 0x401 ∧
    specLocalIndex 0x2004 0x2000 = 1 ∧ (0x401 : Nat) ≠ 1 := by
  decide

/-- C7 amended: the bus computes the local slot as
`((addr - base) & 0xFFFFFF) >> 2` -- a fixed 16 MiB mask applied to the
window-relative offset -- not `(addr & (length-1)) >> 2`.  The two
formulas agree, and the peripheral receives the 32-bit-word index of
the byte offset (never a raw byte address), whenever the window length
is a power of two at most 2^24 that divides the base, as holds for
every mapping the program creates (UART and Clock: length 0x1000,
bases 0x6000000 and 0x8000000). -/
theorem bus_local_index_aligned_agree (base k offset : Nat)
    (hk : k ≤ 24) (hdvd : 2 ^ k ∣ base) (hoff : offset < 2 ^ k) :
    busLocal base (2 ^ k) (base + offset) = offset / 4 ∧
    specLocalIndex (base + offset) (2 ^ k) = offset / 4 := by
  constructor
  · unfold busLocal localAddrOf
    rw [Nat.add_sub_cancel_left]
    have h1 : (0xFFFFFF : Nat) = 2 ^ 24 - 1 := by norm_num
    rw [h1, Nat.and_pow_two_sub_one_eq_mod, Nat.shiftRight_eq_div_pow]
    have h2 : offset % 2 ^ 24 = offset :=
      Nat.mod_eq_of_lt (lt_of_lt_of_le hoff (Nat.pow_le_pow_right (by norm_num) hk))
    rw [h2]
  · unfold specLocalIndex
    rw [Nat.and_pow_two_sub_one_eq_mod, Nat.shiftRight_eq_div_pow]
    obtain ⟨m, hm⟩ := hdvd
    have h3 : (base + offset) % 2 ^ k = offset := by
      rw [hm, Nat.mul_add_mod, Nat.mod_eq_of_lt hoff]
    rw [h3]

/-- C7 witness: the Clock mapping (base 0x8000000, length 0x1000) at
physical address 0x8000004 yields local slot 1 (the DT register) under
both formulas. -/
theorem bus_local_index_aligned_agree_witness :
    busLocal 0x8000000 (2 ^ 12) (0x8000000 + 4) = 1 ∧
    specLocalIndex (0x8000000 + 4) (2 ^ 12) = 1 :=
  bus_local_index_aligned_agree 0x8000000 12 4 (by norm_num) (by norm_num) (by norm_num)

/-- C8 counterexample: a PROCESS_VERTEX_LIST with vertex count 0xFFFFFF
(far beyond the 0x200000-word VRAM capacity) is dispatched to the
backend with exactly that count -- nothing is clamped and no fault is
raised. -/
theorem vdp_dispatch_unclamped_cex :
    (VDP.exec_cmd_queue 2 c8_st 0).dispatches = [GpuDispatch.vertexList 0xFFFFFF 0 0] ∧
    (VDP.exec_cmd_queue 2 c8_st 0).err_mode = ErrorMode.none ∧
    VRAM_WORDS < 0xFFFFFF := by
  refine ⟨rfl, rfl, by decide⟩

/-- C8 amended: the interpreter performs no size validation: a
PROCESS_VERTEX_LIST or DRAW_PRIMITIVE_LIST passes its count to the
backend dispatch unmodified (no clamp against VRAM capacity), and an
upload whose payload exceeds VRAM capacity is an out-of-bounds host
fault (modelled as `none`), not a silently capped transfer. -/
theorem vdp_no_clamp_semantics :
    (∀ (st : VDP) (addr fuel count : Nat), st.vram addr = 1 + count * 256 →
      VDP.exec_cmd_queue (fuel + 1) st addr =
        VDP.exec_cmd_queue fuel
          { VDP.flush_regmem st with
            dispatches := (VDP.flush_regmem st).dispatches ++
              [GpuDispatch.vertexList count (st.vram (addr + 1)) (st.vram (addr + 2))] }
          (addr + 3)) ∧
    (∀ (st : VDP) (addr fuel count : Nat), st.vram addr = 2 + count * 256 →
      VDP.exec_cmd_queue (fuel + 1) st addr =
        VDP.exec_cmd_queue fuel
          { VDP.flush_regmem st with
            dispatches := (VDP.flush_regmem st).dispatches ++
              [GpuDispatch.triList count (st.vram (addr + 1))] }
          (addr + 2)) ∧
    (∀ (st : VDP) (mem : List Nat) (dst : Nat),
      VRAM_WORDS < dst + mem.length → VDP.upload st mem dst = none) := by
  refine ⟨?_, ?_, ?_⟩
  · intro st addr fuel count hv
    exact exec_op1_step st fuel addr count (st.vram (addr + 1)) (st.vram (addr + 2)) hv rfl rfl
  · intro st addr fuel count hv
    exact exec_op2_step st fuel addr count (st.vram (addr + 1)) hv rfl
  · intro st mem dst h
    unfold VDP.upload
    rw [if_neg]
    omega

/-- C8 witness: the one-step characterizations at concrete oversized
vertex-list and primitive-list buffers, and an upload one word larger
than VRAM. -/
theorem vdp_no_clamp_semantics_witness :
    VDP.exec_cmd_queue 1 c8_st 0 =
      VDP.exec_cmd_queue 0
        { VDP.flush_regmem c8_st with
          dispatches := (VDP.flush_regmem c8_st).dispatches ++
            [GpuDispatch.vertexList 0xFFFFFF (c8_st.vram 1) (c8_st.vram 2)] } 3 ∧
    VDP.exec_cmd_queue 1 c8b_st 0 =
      VDP.exec_cmd_queue 0
        { VDP.flush_regmem c8b_st with
          dispatches := (VDP.flush_regmem c8b_st).dispatches ++
            [GpuDispatch.triList 0xFFFFFF (c8b_st.vram 1)] } 2 ∧
    VDP.upload c8_st (List.replicate (VRAM_WORDS + 1) 0) 0 = none :=
  ⟨vdp_no_clamp_semantics.1 c8_st 0 0 0xFFFFFF rfl,
   vdp_no_clamp_semantics.2.1 c8b_st 0 0 0xFFFFFF rfl,
   vdp_no_clamp_semantics.2.2 c8_st (List.replicate (VRAM_WORDS + 1) 0) 0
     (by simp only [List.length_replicate]; omega)⟩

/-- C4 counterexample: from a fresh disabled clock (timestamp 0), the
guest writes 7 to DT and immediately reads DT back while still
disabled: the read returns 0 (the stale snapshot), not the written 7. -/
theorem clock_dt_disabled_read_cex :
    (Clock.read ⟨0, 0⟩ (Clock.write ⟨0, 0⟩ (Clock.new 0) 0x01 7) 0x01).fst = 0 ∧
    (0 : Nat) ≠ 7 :=
  ⟨rfl, by decide⟩

/-- C4 amended: writing `v` to DT while the RTC is disabled only
recomputes `dt_adjust = v - secs_now`; a DT read performed before any
STATUS write still returns the previous `timestamp` snapshot (and
discards the written adjustment).  The written value becomes the
observed timestamp only once a STATUS write refreshes the snapshot
within the same host second (for example the write that re-enables the
RTC). -/
theorem clock_dt_write_disabled_semantics (c : Clock) (v s1 s2 t1 t2 t3 w : Nat)
    (hen : c.rtc_en = false) (hv : v < 2 ^ 32) :
    (Clock.read ⟨s2, t2⟩ (Clock.write ⟨s1, t1⟩ c 0x01 v) 0x01).fst = c.timestamp ∧
    (Clock.write ⟨s1, t1⟩ c 0x01 v).dt_adjust = (v : Int) - (s1 : Int) ∧
    (Clock.write ⟨s1, t3⟩ (Clock.write ⟨s1, t1⟩ c 0x01 v) 0x00 w).timestamp = v := by
  have hw : Clock.write ⟨s1, t1⟩ c 0x01 v =
      { c with dt_adjust := (v : Int) - (s1 : Int) } := by
    unfold Clock.write
    rw [if_neg (by norm_num), if_pos rfl, hen]
    rfl
  refine ⟨?_, ?_, ?_⟩
  · rw [hw]
    unfold Clock.read
    rw [if_neg (by norm_num), if_pos rfl]
    have : ({ c with dt_adjust := (v : Int) - (s1 : Int) } : Clock).rtc_en = false := hen
    rw [this]
    rfl
  · rw [hw]
  · rw [hw]
    unfold Clock.write
    rw [if_pos rfl]
    have harith : ((s1 : Int) + ((v : Int) - (s1 : Int))) = (v : Int) := by ring
    split_ifs <;>
      · show asU32 ((s1 : Int) + ((v : Int) - (s1 : Int))) = v
        rw [harith]
        unfold asU32
        rw [Int.emod_eq_of_lt (by positivity) (by exact_mod_cast hv)]
        simp

/-- C4 witness: the concrete sequence write DT 7, STATUS write 1
(enable) at host second 0. -/
theorem clock_dt_write_disabled_semantics_witness :
    (Clock.read ⟨0, 0⟩ (Clock.write ⟨0, 0⟩ (Clock.new 0) 0x01 7) 0x01).fst =
      (Clock.new 0).timestamp ∧
    (Clock.write ⟨0, 0⟩ (Clock.new 0) 0x01 7).dt_adjust = (7 : Int) - (0 : Int) ∧
    (Clock.write ⟨0, 0⟩ (Clock.write ⟨0, 0⟩ (Clock.new 0) 0x01 7) 0x00 1).timestamp = 7 :=
  clock_dt_write_disabled_semantics (Clock.new 0) 7 0 0 0 0 0 1 rfl (by norm_num)

/-- `wsub64` is plain subtraction when no wrapping occurs. -/
theorem wsub64_eq (a b : Nat) (hb : b ≤ a) (ha : a < 2 ^ 64) : wsub64 a b = a - b := by
  unfold wsub64
  rw [Nat.mod_eq_of_lt (lt_of_le_of_lt hb ha)]
  have h : a + 2 ^ 64 - b = (a - b) + 2 ^ 64 := by omega
  rw [h, Nat.add_mod_right]
  exact Nat.mod_eq_of_lt (by omega)

/-- Recombining the LO and HI halves of a 64-bit counter value. -/
theorem lo_hi_recombine (v : Nat) (hv : v < 2 ^ 64) :
    v % 2 ^ 32 + 2 ^ 32 * ((v >>> 32) % 2 ^ 32) = v := by
  rw [Nat.shiftRight_eq_div_pow]
  omega

/-- A LO/HI read of counter 0 while it is enabled: the observed value is
`ticks_now - base` and the state captures it in `ctr0`. -/
theorem readCtr0_enabled (c : Clock) (s t : Nat) (hen : c.ctr0_en = true)
    (hb : c.ctr0_base ≤ t) (ht : t < 2 ^ 64) :
    Clock.readCtr0 ⟨s, t⟩ c = (t - c.ctr0_base, { c with ctr0 := t - c.ctr0_base }) := by
  have hr2 : Clock.read ⟨s, t⟩ c 0x02 =
      (wsub64 t c.ctr0_base % 2 ^ 32, { c with ctr0 := wsub64 t c.ctr0_base }) := by
    unfold Clock.read
    rw [if_neg (by norm_num), if_neg (by norm_num), if_pos rfl, if_pos hen]
  have hr3 : Clock.read ⟨s, t⟩ ({ c with ctr0 := t - c.ctr0_base }) 0x03 =
      (((t - c.ctr0_base) >>> 32) % 2 ^ 32, { c with ctr0 := t - c.ctr0_base }) := by
    unfold Clock.read
    rw [if_neg (by norm_num), if_neg (by norm_num), if_neg (by norm_num), if_pos rfl]
  unfold Clock.readCtr0
  rw [hr2, wsub64_eq t c.ctr0_base hb ht]
  dsimp only
  rw [hr3]
  dsimp only
  rw [lo_hi_recombine (t - c.ctr0_base) (by omega)]

/-- A LO/HI read of counter 0 while it is disabled: the observed value
is the captured `ctr0` (unchanged), and the base is rebased to the time
of the read. -/
theorem readCtr0_disabled (c : Clock) (s t : Nat) (hen : c.ctr0_en = false)
    (hc : c.ctr0 < 2 ^ 64) :
    Clock.readCtr0 ⟨s, t⟩ c =
      (c.ctr0, { c with ctr0_base := wsub64 t c.ctr0 }) := by
  have hr2 : Clock.read ⟨s, t⟩ c 0x02 =
      (c.ctr0 % 2 ^ 32, { c with ctr0_base := wsub64 t c.ctr0 }) := by
    unfold Clock.read
    rw [if_neg (by norm_num), if_neg (by norm_num), if_pos rfl, if_neg (by rw [hen]; simp)]
  have hr3 : Clock.read ⟨s, t⟩ ({ c with ctr0_base := wsub64 t c.ctr0 }) 0x03 =
      ((c.ctr0 >>> 32) % 2 ^ 32, { c with ctr0_base := wsub64 t c.ctr0 }) := by
    unfold Clock.read
    rw [if_neg (by norm_num), if_neg (by norm_num), if_neg (by norm_num), if_pos rfl]
  unfold Clock.readCtr0
  rw [hr2]
  dsimp only
  rw [hr3]
  dsimp only
  rw [lo_hi_recombine c.ctr0 hc]

/-- C5 counterexample: counter 0 enabled with base 0 and captured value
0; a STATUS write at host tick 10 disables it.  The claim says the
value freezes at `ticks_now - base = 10` as of the toggle, but a LO
read at tick 20 returns 0: nothing was captured at the toggle. -/
theorem clock_ctr0_freeze_at_toggle_cex :
    (Clock.read ⟨0, 20⟩ (Clock.write ⟨0, 10⟩ c5_st 0x00 0) 0x02).fst = 0 ∧
    (0 : Nat) ≠ 10 :=
  ⟨rfl, by decide⟩

/-- C5 amended: while enabled (and between STATUS writes) counter 0
reads observe `ticks_now - base`, so successive reads are monotonically
non-decreasing; reads while disabled all return the value captured by
the last read (constant) and rebase the counter to the read time.  The
freeze point is therefore the last read, not the disable toggle itself:
after a disabled read at tick t3, re-enabling and reading at tick t5
observes the frozen value plus `t5 - t3` -- host ticks elapsed since
the last disabled read, including time spent disabled. -/
theorem clock_ctr0_enable_disable_semantics :
    (∀ (c : Clock) (s1 s2 t1 t2 : Nat),
      c.ctr0_en = true → c.ctr0_base ≤ t1 → t1 ≤ t2 → t2 < 2 ^ 64 →
      (Clock.readCtr0 ⟨s1, t1⟩ c).fst = t1 - c.ctr0_base ∧
      (Clock.readCtr0 ⟨s2, t2⟩ (Clock.readCtr0 ⟨s1, t1⟩ c).snd).fst = t2 - c.ctr0_base ∧
      (Clock.readCtr0 ⟨s1, t1⟩ c).fst ≤
        (Clock.readCtr0 ⟨s2, t2⟩ (Clock.readCtr0 ⟨s1, t1⟩ c).snd).fst) ∧
    (∀ (c : Clock) (s t : Nat),
      c.ctr0_en = false → c.ctr0 < 2 ^ 64 →
      (Clock.readCtr0 ⟨s, t⟩ c).fst = c.ctr0 ∧
      (Clock.readCtr0 ⟨s, t⟩ c).snd.ctr0 = c.ctr0 ∧
      (Clock.readCtr0 ⟨s, t⟩ c).snd.ctr0_en = false) ∧
    (∀ (c : Clock) (s1 s2 s3 t3 t4 t5 : Nat),
      c.ctr0_en = false → c.ctr0 ≤ t3 → t3 ≤ t5 → t5 < 2 ^ 64 →
      (Clock.readCtr0 ⟨s3, t5⟩
        (Clock.write ⟨s2, t4⟩ (Clock.readCtr0 ⟨s1, t3⟩ c).snd 0x00 2)).fst =
        c.ctr0 + (t5 - t3)) := by
  refine ⟨?_, ?_, ?_⟩
  · intro c s1 s2 t1 t2 hen hb h12 h2
    have e1 := readCtr0_enabled c s1 t1 hen hb (by omega)
    have e2 := readCtr0_enabled ({ c with ctr0 := t1 - c.ctr0_base }) s2 t2 hen
      (show c.ctr0_base ≤ t2 by omega) h2
    refine ⟨?_, ?_, ?_⟩
    · rw [e1]
    · rw [e1]
      dsimp only
      rw [e2]
    · rw [e1]
      dsimp only
      rw [e2]
      dsimp only
      omega
  · intro c s t hen hc
    have e := readCtr0_disabled c s t hen hc
    refine ⟨by rw [e], by rw [e], ?_⟩
    rw [e]
    exact hen
  · intro c s1 s2 s3 t3 t4 t5 hen h3 h35 h5
    have e1 := readCtr0_disabled c s1 t3 hen (by omega)
    rw [e1]
    dsimp only
    rw [wsub64_eq t3 c.ctr0 h3 (by omega)]
    have hw : Clock.write ⟨s2, t4⟩ ({ c with ctr0_base := t3 - c.ctr0 }) 0x00 2 =
        { c with
          ctr0_base := t3 - c.ctr0
          rtc_en := false
          ctr0_en := true
          ctr1_en := false
          ctr0_intr := false
          ctr1_intr := false
          timestamp := asU32 ((s2 : Int) + c.dt_adjust) } := rfl
    rw [hw]
    have e2 := readCtr0_enabled
      ({ c with
         ctr0_base := t3 - c.ctr0
         rtc_en := false
         ctr0_en := true
         ctr1_en := false
         ctr0_intr := false
         ctr1_intr := false
         timestamp := asU32 ((s2 : Int) + c.dt_adjust) }) s3 t5 rfl
      (show t3 - c.ctr0 ≤ t5 by omega) h5
    rw [e2]
    dsimp only
    omega

/-- C5 witness: concrete reads of counter 0 across enable and disable
states. -/
theorem clock_ctr0_enable_disable_semantics_witness :
    ((Clock.readCtr0 ⟨0, 5⟩ c5_st).fst = 5 ∧
     (Clock.readCtr0 ⟨0, 9⟩ (Clock.readCtr0 ⟨0, 5⟩ c5_st).snd).fst = 9 ∧
     (Clock.readCtr0 ⟨0, 5⟩ c5_st).fst ≤
       (Clock.readCtr0 ⟨0, 9⟩ (Clock.readCtr0 ⟨0, 5⟩ c5_st).snd).fst) ∧
    ((Clock.readCtr0 ⟨0, 3⟩ (Clock.new 0)).fst = 0 ∧
     (Clock.readCtr0 ⟨0, 3⟩ (Clock.new 0)).snd.ctr0 = 0 ∧
     (Clock.readCtr0 ⟨0, 3⟩ (Clock.new 0)).snd.ctr0_en = false) ∧
    (Clock.readCtr0 ⟨0, 20⟩
        (Clock.write ⟨0, 12⟩ (Clock.readCtr0 ⟨0, 10⟩ (Clock.new 0)).snd 0x00 2)).fst = 10 := by
  obtain ⟨h1, h2, h3⟩ := clock_ctr0_enable_disable_semantics
  exact ⟨h1 c5_st 0 0 5 9 rfl (by decide) (by decide) (by decide),
         h2 (Clock.new 0) 0 3 rfl (by decide),
         h3 (Clock.new 0) 0 0 0 10 12 20 rfl (by decide) (by decide) (by decide)⟩

/-- C6 counterexample: the register mirror starts dirty, so from a
fresh VDP a buffer containing one dispatch and no register write at all
still performs an upload -- the register file is untouched (still all
zeros) and no write ever occurred since the last upload (there was no
upload), yet `uploads` goes from 0 to 1. -/
theorem vdp_first_dispatch_uploads_without_write_cex :
    c6_st.uploads = 0 ∧
    (VDP.tick 4 (VDP.set_reg c6_st REG_CMDPORT 0)).uploads = 1 ∧
    (VDP.tick 4 (VDP.set_reg c6_st REG_CMDPORT 0)).internal_reg = List.replicate 256 0 := by
  refine ⟨rfl, rfl, rfl⟩

/-- C6 amended: the register file is uploaded to the backend only
immediately before a dispatch opcode and only if the dirty flag is set
(set by register writes, and also initially); in particular a buffer of
`n ≥ 1` register writes followed by a PROCESS_VERTEX_LIST dispatch, a
second dispatch with no intervening writes, and an end-of-queue
performs exactly one upload: the first dispatch flushes, the second
finds the mirror clean. -/
theorem vdp_dirty_flush_once (st : VDP) (n reg val cnt1 sp1 dp1 cnt2 sp2 tok addr : Nat)
    (hn : 1 ≤ n) (hreg : reg < 256)
    (hv : ∀ j, j < (c6buf n reg val cnt1 sp1 dp1 cnt2 sp2 tok).length →
      st.vram (addr + j) = (c6buf n reg val cnt1 sp1 dp1 cnt2 sp2 tok).getD j 0) :
    (VDP.exec_cmd_queue (n + 3) st addr).uploads = st.uploads + 1 ∧
    (VDP.exec_cmd_queue (n + 3) st addr).regmem_dirty = false ∧
    (VDP.exec_cmd_queue (n + 3) st addr).dispatches =
      st.dispatches ++ [GpuDispatch.vertexList cnt1 sp1 dp1, GpuDispatch.triList cnt2 sp2] ∧
    (VDP.exec_cmd_queue (n + 3) st addr).last_cmd_tok = st.last_cmd_tok ++ [tok] := by
  have hwlen : (writeCmds n reg val).length = 2 * n := writeCmds_length n reg val
  have hsuffix : ∀ i, i < 6 →
      st.vram (addr + (2 * n + i)) =
        [1 + cnt1 * 256, sp1, dp1, 2 + cnt2 * 256, sp2, 255 + tok * 256].getD i 0 := by
    intro i hi
    have hbl : (c6buf n reg val cnt1 sp1 dp1 cnt2 sp2 tok).length = 2 * n + 6 := by
      unfold c6buf
      rw [List.length_append, hwlen]
      rfl
    have h := hv (2 * n + i) (by omega)
    have h2 : (c6buf n reg val cnt1 sp1 dp1 cnt2 sp2 tok).getD (2 * n + i) 0 =
        [1 + cnt1 * 256, sp1, dp1, 2 + cnt2 * 256, sp2, 255 + tok * 256].getD i 0 := by
      unfold c6buf
      rw [List.getD_append_right _ _ _ _ (by rw [hwlen]; omega)]
      congr 1
      rw [hwlen]
      omega
    rw [h2] at h
    exact h
  have e0 : st.vram (addr + 2 * n) = 1 + cnt1 * 256 := hsuffix 0 (by omega)
  have e1 : st.vram (addr + 2 * n + 1) = sp1 := hsuffix 1 (by omega)
  have e2 : st.vram (addr + 2 * n + 2) = dp1 := hsuffix 2 (by omega)
  have e3 : st.vram (addr + 2 * n + 3) = 2 + cnt2 * 256 := hsuffix 3 (by omega)
  have e4 : st.vram (addr + 2 * n + 3 + 1) = sp2 := hsuffix 4 (by omega)
  have e5 : st.vram (addr + 2 * n + 3 + 2) = 255 + tok * 256 := hsuffix 5 (by omega)
  have t0 : VDP.exec_cmd_queue (n + 3) st addr =
      VDP.exec_cmd_queue 3
        { st with internal_reg := st.internal_reg.set reg val, regmem_dirty := true }
        (addr + 2 * n) := by
    have hm := exec_writeCmds reg val hreg n st addr 3
      [1 + cnt1 * 256, sp1, dp1, 2 + cnt2 * 256, sp2, 255 + tok * 256] hv
    rw [if_neg (by omega)] at hm
    exact hm
  have t1 : VDP.exec_cmd_queue 3
        { st with internal_reg := st.internal_reg.set reg val, regmem_dirty := true }
        (addr + 2 * n) =
      VDP.exec_cmd_queue 2
        { st with internal_reg := st.internal_reg.set reg val, regmem_dirty := false, uploads := st.uploads + 1, dispatches := st.dispatches ++ [GpuDispatch.vertexList cnt1 sp1 dp1] }
        (addr + 2 * n + 3) :=
    exec_op1_step _ 2 _ cnt1 sp1 dp1 e0 e1 e2
  have t2 : VDP.exec_cmd_queue 2
        { st with internal_reg := st.internal_reg.set reg val, regmem_dirty := false, uploads := st.uploads + 1, dispatches := st.dispatches ++ [GpuDispatch.vertexList cnt1 sp1 dp1] }
        (addr + 2 * n + 3) =
      VDP.exec_cmd_queue 1
        { st with internal_reg := st.internal_reg.set reg val, regmem_dirty := false, uploads := st.uploads + 1, dispatches := st.dispatches ++ [GpuDispatch.vertexList cnt1 sp1 dp1] ++ [GpuDispatch.triList cnt2 sp2] }
        (addr + 2 * n + 3 + 2) :=
    exec_op2_step _ 1 _ cnt2 sp2 e3 e4
  have t3 : VDP.exec_cmd_queue 1
        { st with internal_reg := st.internal_reg.set reg val, regmem_dirty := false, uploads := st.uploads + 1, dispatches := st.dispatches ++ [GpuDispatch.vertexList cnt1 sp1 dp1] ++ [GpuDispatch.triList cnt2 sp2] }
        (addr + 2 * n + 3 + 2) =
      { st with internal_reg := st.internal_reg.set reg val, regmem_dirty := false, uploads := st.uploads + 1, dispatches := st.dispatches ++ [GpuDispatch.vertexList cnt1 sp1 dp1] ++ [GpuDispatch.triList cnt2 sp2], last_cmd_tok := st.last_cmd_tok ++ [tok] } :=
    exec_op255_step _ 0 _ tok e5
  rw [t0, t1, t2, t3]
  refine ⟨rfl, rfl, ?_, rfl⟩
  dsimp only
  rw [List.append_assoc]
  rfl

/-- C6 witness: two writes of 7 to register 5 followed by the two
dispatches and an end-of-queue, starting from a fresh VDP. -/
theorem vdp_dirty_flush_once_witness :
    (VDP.exec_cmd_queue 5 c6w_st 0).uploads = 1 ∧
    (VDP.exec_cmd_queue 5 c6w_st 0).regmem_dirty = false ∧
    (VDP.exec_cmd_queue 5 c6w_st 0).dispatches =
      [GpuDispatch.vertexList 1 64 128, GpuDispatch.triList 1 64] ∧
    (VDP.exec_cmd_queue 5 c6w_st 0).last_cmd_tok = [9] :=
  vdp_dirty_flush_once c6w_st 2 5 7 1 64 128 1 64 9 0 (by decide) (by decide) (by decide)

end NyxBox
